import Mathlib

/-!
Verification development for the lana-image-agent repository.

This file gives a shallow embedding of the deterministic core of the
repository — the schema extractor, the two capability classifiers, the
model catalog cache with its static fallback list, the reference-image
validation of the tool executor, and the requirement scorer/filter — and
proves properties of the specification against it.

Embedding conventions:
- JavaScript objects become Lean structures; a field that may be absent
  (`undefined`) becomes an `Option` field, and JavaScript truthiness of
  strings/options is modelled explicitly (`""` and `undefined` are falsy,
  arrays and objects are always truthy, even when empty).
- JavaScript association objects (schema property maps) become ordered
  association lists `List (String × _)`, matching JS insertion-order
  iteration; property access `o.k !== undefined` becomes `lookup`.
- String operations are modelled on the character lists of the strings
  (`toLowerCase` via `Char.toLower`, `includes` as an infix test), so all
  string computations kernel-evaluate.
- `Math.log10`-based popularity is embedded over `ℝ` with `Real.logb`;
  every other score contribution is integral.
-/

/-- Lowercase a string character-wise, modelling JS `String.toLowerCase`
on the ASCII identifiers and keywords this codebase compares. -/
def jsToLower (s : String) : String := String.mk (s.data.map Char.toLower)

/-- Whether the first list occurs as a contiguous prefix of the second. -/
def isPrefixOfCL : List Char → List Char → Bool
  | [], _ => true
  | _ :: _, [] => false
  | a :: as, b :: bs => a == b && isPrefixOfCL as bs

/-- Whether the first list occurs contiguously inside the second. -/
def isInfixOfCL (needle : List Char) : List Char → Bool
  | [] => needle.isEmpty
  | b :: bs => isPrefixOfCL needle (b :: bs) || isInfixOfCL needle bs

/-- JS `hay.includes(needle)` (substring containment). -/
def jsIncludes (hay needle : String) : Bool := isInfixOfCL needle.data hay.data

/-- JS truthiness of a possibly-absent string: `undefined` and `""` are
falsy, every other string is truthy. -/
def truthyStr : Option String → Bool
  | none => false
  | some s => !(s = "")

/-- JS `x || d` for a possibly-absent string `x` with string default `d`. -/
def jsOrStr (x : Option String) (d : String) : String :=
  match x with
  | none => d
  | some s => if s = "" then d else s

/-- A primitive JSON value, as can appear in a schema `default` field. -/
inductive JsLit where
  | str (s : String)
  | int (n : Int)
  | bool (b : Bool)
deriving DecidableEq, Repr

/-- One member of a JSON-schema `allOf` composite (only its `type` is read
by the extractor). -/
structure AllOfItem where
  type : Option String := none
deriving DecidableEq, Repr

/-- One raw property of the provider's OpenAPI `Input` schema, with
exactly the fields `extractSimplifiedSchema` reads. -/
structure RawProperty where
  type : Option String := none
  description : Option String := none
  enum : Option (List String) := none
  default : Option JsLit := none
  format : Option String := none
  allOf : Option (List AllOfItem) := none
deriving DecidableEq, Repr

/-- The `Input` section of the provider schema
(`openapi_schema.components.schemas.Input`). -/
structure InputSection where
  properties : Option (List (String × RawProperty)) := none
  required : Option (List String) := none
deriving DecidableEq, Repr

/-- The `schemas` section of the provider schema. -/
structure SchemasSection where
  Input : Option InputSection := none
deriving DecidableEq, Repr

/-- The `components` section of the provider schema. -/
structure ComponentsSection where
  schemas : Option SchemasSection := none
deriving DecidableEq, Repr

/-- The `openapi_schema` document of a model version. -/
structure OpenapiSchema where
  components : Option ComponentsSection := none
deriving DecidableEq, Repr

/-- A model version record as passed to the extractor; `none` models a
`null`/`undefined` argument. -/
structure ModelVersion where
  openapi_schema : Option OpenapiSchema := none
deriving DecidableEq, Repr

/-- The extractor's argument: a possibly-`null`/`undefined` model version. -/
abbrev RawModelSchema := Option ModelVersion

/-- The optional chain
`modelSchema?.openapi_schema?.components?.schemas?.Input?.properties`. -/
def rawProperties (ms : RawModelSchema) : Option (List (String × RawProperty)) := do
  let m ← ms
  let o ← m.openapi_schema
  let c ← o.components
  let s ← c.schemas
  let i ← s.Input
  i.properties

/-- The optional chain
`modelSchema?.openapi_schema?.components?.schemas?.Input?.required`. -/
def rawRequired (ms : RawModelSchema) : Option (List String) := do
  let m ← ms
  let o ← m.openapi_schema
  let c ← o.components
  let s ← c.schemas
  let i ← s.Input
  i.required

/-- A simplified parameter descriptor, as produced by
`extractSimplifiedSchema`. Boolean marker fields that JS only sets when
true (`isImageInput`, `isMask`, `optionalForReferenceImages`) are `Bool`
fields defaulting to `false`. -/
structure ParamInfo where
  type : String := "string"
  description : String := ""
  required : Bool := false
  options : Option (List String) := none
  default : Option JsLit := none
  format : Option String := none
  isImageInput : Bool := false
  isMask : Bool := false
  optionalForReferenceImages : Bool := false
deriving DecidableEq, Repr

/-- Build the `ParamInfo` for one property, following the body of the
per-property loop of `extractSimplifiedSchema` (replicate-models.service
and models.routes define the identical function). -/
def extractParam (requiredList : List String) (key : String) (value : RawProperty) : ParamInfo :=
  let type0 := jsOrStr value.type "string"
  let typeFinal :=
    match value.allOf with
    | none => type0
    | some items =>
      let allOfTypes := (items.map (fun i => i.type)).reduceOption.filter (fun t => !(t = ""))
      match allOfTypes with
      | [] => type0
      | t :: _ => t
  let desc := value.description.getD ""
  let isImageParam :=
    jsIncludes (jsToLower key) "image" ||
    value.format == some "uri" ||
    (truthyStr value.description && jsIncludes (jsToLower desc) "image")
  let isMaskParam :=
    jsToLower key == "mask" ||
    jsIncludes (jsToLower key) "mask" ||
    (truthyStr value.description && jsIncludes (jsToLower desc) "mask for inpainting")
  { type := typeFinal
    description := desc
    required := requiredList.contains key
    options := value.enum
    default := value.default
    format := match value.format with
      | none => none
      | some f => if f = "" then none else some f
    isImageInput := isImageParam
    isMask := isMaskParam
    optionalForReferenceImages := isMaskParam }

/-- The simplified input schema: an ordered map of parameter descriptors. -/
abbrev InputSchema := List (String × ParamInfo)

/-- Embedding of `extractSimplifiedSchema(modelSchema)`. The JS function
wraps its body in try/catch and returns the (possibly empty) accumulator
in every case; over the modelled input space no exception path is
reachable, so the embedding is a total function that yields `[]` exactly
when the `properties` section is absent. -/
def extractSimplifiedSchema (ms : RawModelSchema) : InputSchema :=
  match rawProperties ms with
  | none => []
  | some props =>
    let req := (rawRequired ms).getD []
    props.map (fun kv => (kv.1, extractParam req kv.1 kv.2))

/-- Capabilities as computed by `detectCapabilities` of
replicate-models.service (the part of the repository that talks to the
live catalog source). -/
structure RmsCapabilities where
  supportsSingleReference : Bool := false
  supportsMultipleReferences : Bool := false
  supportsImageToImage : Bool := false
deriving DecidableEq, Repr

/-- Embedding of replicate-models.service `detectCapabilities(model,
modelSchema)`. The JS function ignores its `model` argument and inspects
only the raw schema properties, looking for parameters literally named
`image` and `images`. -/
def rmsDetectCapabilities (modelSchema : RawModelSchema) : RmsCapabilities :=
  match rawProperties modelSchema with
  | none => {}
  | some schema =>
    let hasImageParam := (schema.lookup "image").isSome
    let hasImagesParam := (schema.lookup "images").isSome
    { supportsSingleReference := hasImageParam || hasImagesParam
      supportsMultipleReferences := hasImagesParam
      supportsImageToImage := hasImageParam || hasImagesParam }

/-- Capabilities as computed by `detectCapabilities` of models.routes. -/
structure RouteCapabilities where
  textToImage : Bool
  imageToImage : Bool
  supportsReferenceImages : Bool
  supportedAspectRatios : List String
deriving DecidableEq, Repr

/-- Embedding of models.routes `detectCapabilities(inputSchema)`, the
classifier that runs over the simplified schema when building the model
summaries consumed by the scorer. `none` models an `undefined` argument. -/
def detectCapabilities (inputSchema : Option InputSchema) : RouteCapabilities :=
  match inputSchema with
  | none =>
    { textToImage := true, imageToImage := false
      supportsReferenceImages := false, supportedAspectRatios := [] }
  | some schema =>
    if schema.isEmpty then
      { textToImage := true, imageToImage := false
        supportsReferenceImages := false, supportedAspectRatios := [] }
    else
      let textToImage := (schema.lookup "prompt").isSome
      let imageInputs := schema.filter (fun kv => kv.2.isImageInput && !kv.2.isMask)
      let hasImageInputs := !imageInputs.isEmpty
      let supportedAspectRatios :=
        match schema.lookup "aspect_ratio" with
        | some ar =>
          match ar.options with
          | some opts => opts
          | none =>
            if (schema.lookup "width").isSome && (schema.lookup "height").isSome then
              ["custom"]
            else ["1:1"]
        | none =>
          if (schema.lookup "width").isSome && (schema.lookup "height").isSome then
            ["custom"]
          else ["1:1"]
      { textToImage := textToImage
        imageToImage := hasImageInputs
        supportsReferenceImages := hasImageInputs
        supportedAspectRatios := supportedAspectRatios }

/-- A catalog model as assembled by replicate-models.service (the fields
of the static fallback entries plus `runCount`; API-derived entries carry
further metadata fields that none of the modelled operations read). -/
structure CatalogModel where
  id : String
  name : String
  owner : String
  fullName : String
  description : String := ""
  runCount : Nat := 0
  aspectRatios : List (String × Nat × Nat) := []
  capabilities : RmsCapabilities := {}
  strengths : List String := []
  inputSchema : InputSchema := []
deriving DecidableEq, Repr

/-- Embedding of the hand-authored `fallbackModels` list of
replicate-models.service, used whenever the live catalog fetch fails. -/
def fallbackModels : List CatalogModel :=
  [ { id := "flux-schnell"
      name := "Flux Schnell"
      owner := "black-forest-labs"
      fullName := "black-forest-labs/flux-schnell"
      description := "Fast image generation with Flux"
      aspectRatios :=
        [("1:1", 1024, 1024), ("16:9", 1344, 768), ("21:9", 1536, 640),
         ("9:16", 768, 1344), ("4:3", 1152, 896)]
      capabilities :=
        { supportsSingleReference := false
          supportsMultipleReferences := false
          supportsImageToImage := false }
      strengths := ["fast", "general-purpose", "text-to-image"]
      inputSchema :=
        [("prompt",
          { type := "string", description := "Text prompt for image generation"
            required := true }),
         ("aspect_ratio",
          { type := "string", description := "Aspect ratio for the image"
            options := some ["1:1", "16:9", "21:9", "9:16", "4:3"]
            default := some (.str "1:1") }),
         ("num_outputs",
          { type := "integer", description := "Number of images to generate"
            default := some (.int 1) })] },
    { id := "flux-dev"
      name := "Flux Dev"
      owner := "black-forest-labs"
      fullName := "black-forest-labs/flux-dev"
      description := "High quality image generation with Flux"
      aspectRatios :=
        [("1:1", 1024, 1024), ("16:9", 1344, 768), ("21:9", 1536, 640),
         ("9:16", 768, 1344), ("4:3", 1152, 896)]
      capabilities :=
        { supportsSingleReference := false
          supportsMultipleReferences := false
          supportsImageToImage := false }
      strengths := ["high-quality", "detailed", "photorealistic", "text-to-image"]
      inputSchema :=
        [("prompt",
          { type := "string", description := "Text prompt for image generation"
            required := true }),
         ("aspect_ratio",
          { type := "string", description := "Aspect ratio for the image"
            options := some ["1:1", "16:9", "21:9", "9:16", "4:3"]
            default := some (.str "1:1") }),
         ("guidance_scale",
          { type := "number", description := "Guidance scale for generation" }),
         ("num_inference_steps",
          { type := "integer", description := "Number of denoising steps"
            default := some (.int 28) })] },
    { id := "stable-diffusion"
      name := "Stable Diffusion"
      owner := "stability-ai"
      fullName := "stability-ai/stable-diffusion"
      description := "Classic stable diffusion model"
      aspectRatios := [("1:1", 512, 512), ("16:9", 768, 432), ("9:16", 432, 768)]
      capabilities :=
        { supportsSingleReference := false
          supportsMultipleReferences := false
          supportsImageToImage := false }
      strengths := ["versatile", "general-purpose", "text-to-image"]
      inputSchema :=
        [("prompt",
          { type := "string", description := "Text prompt for image generation"
            required := true }),
         ("width",
          { type := "integer", description := "Width of the generated image"
            default := some (.int 512) }),
         ("height",
          { type := "integer", description := "Height of the generated image"
            default := some (.int 512) }),
         ("negative_prompt",
          { type := "string"
            description := "Negative prompt to avoid certain elements" })] } ]

/-- The in-memory models cache of replicate-models.service. -/
structure ModelsCache where
  data : Option (List CatalogModel)
  fetchedAt : Nat
  ttl : Nat
deriving Repr

/-- Embedding of `isCacheValid()`: a cache holds iff it has data and its
age is below the TTL. -/
def isCacheValid (c : ModelsCache) (now : Nat) : Bool :=
  match c.data with
  | none => false
  | some _ => (now : Int) - (c.fetchedAt : Int) < (c.ttl : Int)

/-- Embedding of `getImageModels(options)`. The asynchronous fetch is
passed in as its outcome (`Except`): `.ok` is a successful
`fetchModelsFromAPI()` result, `.error` a thrown fetch error, which the
JS catches and replaces by `fallbackModels` without touching the cache.
Returns the (optionally reference-count-filtered) list together with the
cache state after the call. -/
def getImageModels (cache : ModelsCache) (now : Nat)
    (fetchResult : Except String (List CatalogModel))
    (referenceImageCount : Option Int) : List CatalogModel × ModelsCache :=
  let resolved :=
    if isCacheValid cache now then (cache.data.getD [], cache)
    else
      match fetchResult with
      | .ok ms => (ms, { data := some ms, fetchedAt := now, ttl := cache.ttl })
      | .error _ => (fallbackModels, cache)
  let models := resolved.1
  let cacheAfter := resolved.2
  match referenceImageCount with
  | none => (models, cacheAfter)
  | some count =>
    if count = 0 then (models, cacheAfter)
    else if count = 1 then
      (models.filter (fun m => m.capabilities.supportsSingleReference), cacheAfter)
    else if count > 1 then
      (models.filter (fun m => m.capabilities.supportsMultipleReferences), cacheAfter)
    else (models, cacheAfter)

/-- The non-mask image-input parameters of a schema, as collected by the
schema-aware validation of `executeGenerateImage` (tool-executor.service):
name and type of every entry with `isImageInput === true && !isMask`. -/
def imageInputParams (inputSchema : InputSchema) : List (String × String) :=
  (inputSchema.filter (fun kv => kv.2.isImageInput == true && !kv.2.isMask)).map
    (fun kv => (kv.1, kv.2.type))

/-- Embedding of the schema-aware reference-image validation block of
`executeGenerateImage` (tool-executor.service): given the selected model's
name and simplified input schema and the normalized reference list, throw
when the model accepts no reference images, or when several references
are supplied but no non-mask image parameter is array-typed. -/
def validateReferenceImages (modelName : String) (inputSchema : InputSchema)
    (normalizedReferences : List String) : Except String Unit :=
  if normalizedReferences.length > 0 then
    let ps := imageInputParams inputSchema
    if ps.length = 0 then
      .error ("Model \"" ++ modelName ++ "\" does not accept reference images. " ++
        "Its inputSchema does not have any image input parameters. " ++
        "Please choose a model that supports image-to-image generation.")
    else if normalizedReferences.length > 1 &&
        (ps.filter (fun p => p.2 = "array")).length = 0 then
      .error ("Model \"" ++ modelName ++ "\" only accepts single reference image but " ++
        toString normalizedReferences.length ++ " were provided. " ++
        "Please choose a model that supports multiple reference images " ++
        "or provide only one reference image.")
    else .ok ()
  else .ok ()

/-- The `qualityProfile` object of an LLM-authored model summary. -/
structure QualityProfile where
  speed : Option String := none
  detail : Option String := none
  coherence : Option String := none
  promptFollowing : Option String := none
deriving DecidableEq, Repr

/-- An LLM-authored model summary, with the fields the scorer reads
(summaries on disk may carry further fields such as `keyParameters`;
they only influence the serialized text searched for special needs). -/
structure ModelSummary where
  oneLinePitch : Option String := none
  bestFor : Option (List String) := none
  notGoodFor : Option (List String) := none
  styleStrengths : Option (List String) := none
  qualityProfile : Option QualityProfile := none
  typicalUseCase : Option String := none
deriving DecidableEq, Repr

/-- Capabilities of a summarized model as read by the scorer; the scorer
guards every access, so `supportedAspectRatios` is kept optional. -/
structure SummaryCapabilities where
  textToImage : Bool := false
  imageToImage : Bool := false
  supportsReferenceImages : Bool := false
  supportedAspectRatios : Option (List String) := none
deriving DecidableEq, Repr

/-- A model entry of the summaries snapshot, as consumed by
`scoreModel` / `filterAndScoreModels` (model-filter service). -/
structure SummaryModel where
  id : String
  name : String
  owner : String
  fullName : String
  runCount : Nat := 0
  capabilities : SummaryCapabilities := {}
  summary : Option ModelSummary := none
deriving DecidableEq, Repr

/-- The requirements object produced by the upstream LLM phase. List
fields model absent-or-empty arrays (both are skipped identically by the
scorer); string fields are optional, with `""` falsy. -/
structure Requirements where
  needsReferenceImages : Bool := false
  minQuality : Option String := none
  styleFocus : List String := []
  speedPreference : Option String := none
  preferredModel : Option String := none
  useCase : Option String := none
  specialNeeds : List String := []
  aspectRatio : Option String := none
deriving DecidableEq, Repr

/-- Quote a string as a JSON string (the serialized summaries contain no
characters needing escapes). -/
def jsonQuote (s : String) : String := "\"" ++ s ++ "\""

/-- Serialize a list of strings as a JSON array. -/
def jsonStrArr (xs : List String) : String :=
  "[" ++ String.intercalate "," (xs.map jsonQuote) ++ "]"

/-- Join the present `key : value` pairs of a JSON object body (matching
`JSON.stringify`, which skips absent fields). -/
def jsonFields (fs : List (Option (String × String))) : String :=
  String.intercalate "," (fs.reduceOption.map (fun kv => jsonQuote kv.1 ++ ":" ++ kv.2))

/-- Serialize a quality profile as `JSON.stringify` does. -/
def stringifyQualityProfile (q : QualityProfile) : String :=
  "\x7b" ++ jsonFields
    [q.speed.map (fun v => ("speed", jsonQuote v)),
     q.detail.map (fun v => ("detail", jsonQuote v)),
     q.coherence.map (fun v => ("coherence", jsonQuote v)),
     q.promptFollowing.map (fun v => ("promptFollowing", jsonQuote v))] ++ "\x7d"

/-- Serialize `model.summary || {}` as `JSON.stringify` does (field order
follows the summary-generation prompt's field order). -/
def stringifySummary : Option ModelSummary → String
  | none => "\x7b\x7d"
  | some s =>
    "\x7b" ++ jsonFields
      [s.oneLinePitch.map (fun v => ("oneLinePitch", jsonQuote v)),
       s.bestFor.map (fun v => ("bestFor", jsonStrArr v)),
       s.notGoodFor.map (fun v => ("notGoodFor", jsonStrArr v)),
       s.styleStrengths.map (fun v => ("styleStrengths", jsonStrArr v)),
       s.qualityProfile.map (fun q => ("qualityProfile", stringifyQualityProfile q)),
       s.typicalUseCase.map (fun v => ("typicalUseCase", jsonQuote v))] ++ "\x7d"

/-- The ordinal quality map of `scoreModel` (`qualityMap[s]`, `undefined`
for unknown keys). -/
def qualityMapLookup (s : String) : Option Int :=
  if s = "low" then some 1
  else if s = "moderate" then some 2
  else if s = "good" then some 3
  else if s = "very-good" then some 4
  else if s = "excellent" then some 5
  else none

/-- JS `qualityMap[x] || 3` for a possibly-absent quality label `x`. -/
def qualityLevel (x : Option String) : Int :=
  ((x.bind qualityMapLookup).getD 3)

/-- One requested style matches one declared style strength when either
lowercased string contains the other. -/
def styleMatches (modelStyle reqStyle : String) : Bool :=
  jsIncludes (jsToLower modelStyle) (jsToLower reqStyle) ||
  jsIncludes (jsToLower reqStyle) (jsToLower modelStyle)

/-- Whether a model matches an explicit `preferredModel` hint: the
lowercased hint occurs in the lowercased name, id, owner or full name. -/
def prefMatches (m : SummaryModel) (preferred : String) : Bool :=
  let p := jsToLower preferred
  jsIncludes (jsToLower m.name) p ||
  jsIncludes (jsToLower m.id) p ||
  jsIncludes (jsToLower m.owner) p ||
  jsIncludes (jsToLower m.fullName) p

/-- Preferred-model block of `scoreModel` (`+100` on an explicit match). -/
def prefScore (m : SummaryModel) (r : Requirements) : Int :=
  if truthyStr r.preferredModel then
    if prefMatches m (r.preferredModel.getD "") then 100 else 0
  else 0

/-- Reference-image block of `scoreModel`: `+30`/`-50` when references are
needed, else `+10` for text-to-image capability. -/
def refImageScore (m : SummaryModel) (r : Requirements) : Int :=
  if r.needsReferenceImages then
    if m.capabilities.supportsReferenceImages || m.capabilities.imageToImage then 30
    else -50
  else
    if m.capabilities.textToImage then 10 else 0

/-- Style block of `scoreModel`: `+15` per requested style matched against
a non-empty `styleStrengths` list, `-10` when such a list matches nothing;
a model without style strengths is left untouched. -/
def styleScore (m : SummaryModel) (r : Requirements) : Int :=
  if r.styleFocus.length > 0 then
    let modelStyles := (m.summary.bind (fun s => s.styleStrengths)).getD []
    if modelStyles.length > 0 then
      let matched := r.styleFocus.filter
        (fun reqStyle => modelStyles.any (fun ms => styleMatches ms reqStyle))
      if matched.length > 0 then 15 * (matched.length : Int) else -10
    else 0
  else 0

/-- Quality block of `scoreModel` (`+10`/`-20` on detail, `+5` on prompt
following, against the required minimum level). -/
def qualityScore (m : SummaryModel) (r : Requirements) : Int :=
  if truthyStr r.minQuality then
    let minQualityLevel := (qualityMapLookup ((r.minQuality).getD "")).getD 3
    let modelDetail := qualityLevel ((m.summary.bind (fun s => s.qualityProfile)).bind
      (fun q => q.detail))
    let modelPromptFollowing := qualityLevel ((m.summary.bind (fun s => s.qualityProfile)).bind
      (fun q => q.promptFollowing))
    (if modelDetail ≥ minQualityLevel then 10 else -20) +
    (if modelPromptFollowing ≥ minQualityLevel then 5 else 0)
  else 0

/-- Speed block of `scoreModel` (`+15`/`-10` under a fast preference,
`-5` for fast models under a quality priority). -/
def speedScore (m : SummaryModel) (r : Requirements) : Int :=
  if r.speedPreference == some "fast" then
    let speed := jsOrStr ((m.summary.bind (fun s => s.qualityProfile)).bind
      (fun q => q.speed)) "moderate"
    if speed = "very-fast" || speed = "fast" then 15
    else if speed = "very-slow" || speed = "slow" then -10
    else 0
  else if r.speedPreference == some "no" then
    let speed := jsOrStr ((m.summary.bind (fun s => s.qualityProfile)).bind
      (fun q => q.speed)) "moderate"
    if speed = "very-fast" || speed = "fast" then -5 else 0
  else 0

/-- Use-case block of `scoreModel` (`+20` when the use case matches a
`bestFor` entry in either substring direction). -/
def bestForScore (m : SummaryModel) (r : Requirements) : Int :=
  if truthyStr r.useCase then
    match m.summary.bind (fun s => s.bestFor) with
    | some bf =>
      let u := jsToLower (r.useCase.getD "")
      if bf.any (fun b => jsIncludes (jsToLower b) u || jsIncludes u (jsToLower b)) then 20
      else 0
    | none => 0
  else 0

/-- Aspect-ratio block of `scoreModel` (`+5` exact, `+3` custom, `-5`
otherwise, whenever the model declares a ratio list). -/
def aspectRatioScore (m : SummaryModel) (r : Requirements) : Int :=
  if truthyStr r.aspectRatio then
    match m.capabilities.supportedAspectRatios with
    | some ratios =>
      if ratios.contains (r.aspectRatio.getD "") then 5
      else if ratios.contains "custom" then 3
      else -5
    | none => 0
  else 0

/-- Special-needs block of `scoreModel` (`+10` per need found in the
serialized summary text). -/
def specialNeedsScore (m : SummaryModel) (r : Requirements) : Int :=
  if r.specialNeeds.length > 0 then
    let summaryText := jsToLower (stringifySummary m.summary)
    let matched := r.specialNeeds.filter (fun need => jsIncludes summaryText (jsToLower need))
    if matched.length > 0 then 10 * (matched.length : Int) else 0
  else 0

/-- Not-good-for block of `scoreModel` (`-30` when the use case matches a
`notGoodFor` entry in either substring direction). -/
def notGoodForScore (m : SummaryModel) (r : Requirements) : Int :=
  if truthyStr r.useCase then
    match m.summary.bind (fun s => s.notGoodFor) with
    | some ng =>
      let u := jsToLower (r.useCase.getD "")
      if ng.any (fun n => jsIncludes (jsToLower n) u || jsIncludes u (jsToLower n)) then -30
      else 0
    | none => 0
  else 0

/-- The integral part of `scoreModel`: the sum of all additive score
contributions except the popularity term, in the order the JS body
accumulates them. The JS function additionally collects one
human-readable reason string per firing signal; no modelled property
reads them, so they are omitted. -/
def scoreModelInt (m : SummaryModel) (r : Requirements) : Int :=
  prefScore m r + refImageScore m r + styleScore m r + qualityScore m r +
  speedScore m r + bestForScore m r + aspectRatioScore m r +
  specialNeedsScore m r + notGoodForScore m r

/-- The popularity base score
`Math.min(Math.log10(runCount || 1) / 10, 1) * 20`. -/
noncomputable def popularityScore (runCount : Nat) : ℝ :=
  min (Real.logb 10 (if runCount = 0 then 1 else (runCount : ℝ)) / 10) 1 * 20

/-- Embedding of `scoreModel(model, requirements).score`: popularity plus
the integral contributions. -/
noncomputable def scoreModel (m : SummaryModel) (r : Requirements) : ℝ :=
  popularityScore m.runCount + (scoreModelInt m r : ℝ)

/-- The hard-filter pass of `filterAndScoreModels`: reference-image
support when required, text-to-image support otherwise, and the declared
aspect-ratio list must contain the requested ratio or `"custom"`. -/
def passesHardFilters (r : Requirements) (m : SummaryModel) : Bool :=
  if r.needsReferenceImages &&
      !(m.capabilities.supportsReferenceImages || m.capabilities.imageToImage) then
    false
  else if !r.needsReferenceImages && !m.capabilities.textToImage then
    false
  else if truthyStr r.aspectRatio &&
      m.capabilities.supportedAspectRatios.isSome &&
      !((m.capabilities.supportedAspectRatios.getD []).contains (r.aspectRatio.getD "")) &&
      !((m.capabilities.supportedAspectRatios.getD []).contains "custom") then
    false
  else true

/-- Stable descending insertion by score: an element is placed before the
first list entry whose score it reaches. This realizes the JS stable
`sort((a, b) => b._score - a._score)`. -/
noncomputable def insertByScoreDesc (x : SummaryModel × ℝ) :
    List (SummaryModel × ℝ) → List (SummaryModel × ℝ)
  | [] => [x]
  | y :: ys => if x.2 ≥ y.2 then x :: y :: ys else y :: insertByScoreDesc x ys

/-- Stable sort of scored models by descending score. -/
noncomputable def sortByScoreDesc :
    List (SummaryModel × ℝ) → List (SummaryModel × ℝ)
  | [] => []
  | x :: xs => insertByScoreDesc x (sortByScoreDesc xs)

/-- Embedding of `filterAndScoreModels(requirements, limit)`. The JS
function loads the summaries snapshot from disk; here the catalog is an
explicit argument. It hard-filters, scores, stably sorts by descending
score, truncates to `limit`, and strips the internal score fields. -/
noncomputable def filterAndScoreModels (allModels : List SummaryModel)
    (requirements : Requirements) (limit : Nat) : List SummaryModel :=
  if allModels.isEmpty then []
  else
    let filtered := allModels.filter (fun m => passesHardFilters requirements m)
    let scored := filtered.map (fun m => (m, scoreModel m requirements))
    let sorted := sortByScoreDesc scored
    let topModels := sorted.take limit
    topModels.map (fun p => p.1)

/-- The Scenario B provider schema of the specification: an `image_input`
parameter of type `array` with format `uri`, next to a string `mask`
parameter. -/
def scenarioBInput : InputSection :=
  { properties := some
      [("image_input", { type := some "array", format := some "uri" }),
       ("mask", { type := some "string" })] }

/-- The Scenario B schema wrapped into the full provider document shape. -/
def scenarioBSchema : RawModelSchema :=
  some
    { openapi_schema := some
        { components := some
            { schemas := some
                { Input := some scenarioBInput } } } }

/-- A summarized model that declares an empty `supportedAspectRatios`
list (and is otherwise text-to-image capable). -/
def mC2 : SummaryModel :=
  { id := "empty-ratios", name := "Empty Ratios", owner := "acme",
    fullName := "acme/empty-ratios",
    capabilities := { textToImage := true, supportedAspectRatios := some [] } }

/-- A requirements object asking only for a 16:9 aspect ratio. -/
def reqC2 : Requirements := { aspectRatio := some "16:9" }

/-- A summarized model with no summary at all (hence no declared
`styleStrengths`). -/
def mC3 : SummaryModel :=
  { id := "plain", name := "Plain", owner := "acme", fullName := "acme/plain",
    runCount := 1, capabilities := { textToImage := true } }

/-- A requirements object asking only for an anime style focus. -/
def reqC3 : Requirements := { styleFocus := ["anime"] }

/-- The corrected per-model style contribution, stated from the spec's
scoring table amended by the no-`styleStrengths` exemption: `+15` per
matched requested style, `-10` when a non-empty strengths list matches
nothing, `0` when the model declares no style strengths. -/
def styleContributionSpec (modelStyles styleFocus : List String) : Int :=
  if modelStyles = [] then 0
  else
    let matched := styleFocus.filter
      (fun reqStyle => modelStyles.any (fun ms => styleMatches ms reqStyle))
    if matched ≠ [] then 15 * (matched.length : Int) else -10

/-- The model explicitly preferred in Scenario D, with style strengths
that match none of the requested styles of `reqC4`. -/
def mC4A : SummaryModel :=
  { id := "flux-dev", name := "Flux Dev", owner := "black-forest-labs",
    fullName := "black-forest-labs/flux-dev", runCount := 1,
    capabilities := { textToImage := true },
    summary := some { styleStrengths := some ["zzz"] } }

/-- A competing model that matches all eight requested styles of `reqC4`
but not the preferred-model hint. -/
def mC4B : SummaryModel :=
  { id := "other", name := "Other", owner := "acme", fullName := "acme/other",
    runCount := 1, capabilities := { textToImage := true },
    summary := some
      { styleStrengths := some ["s1", "s2", "s3", "s4", "s5", "s6", "s7", "s8"] } }

/-- Requirements preferring `flux-dev` while asking for eight styles. -/
def reqC4 : Requirements :=
  { preferredModel := some "flux-dev",
    styleFocus := ["s1", "s2", "s3", "s4", "s5", "s6", "s7", "s8"] }

/-- A minimal model matching the preference hint `"w"`. -/
def mC4W : SummaryModel :=
  { id := "w", name := "W", owner := "o", fullName := "o/w",
    capabilities := { textToImage := true } }

/-- A requirements object with only a preferred-model hint. -/
def reqC4W : Requirements := { preferredModel := some "w" }

/-- An empty models cache (no data yet). -/
def emptyCache : ModelsCache := { data := none, fetchedAt := 0, ttl := 3600000 }

theorem head?_take_of_pos {α : Type} (n : Nat) (l : List α) (h : 0 < n) :
    (l.take n).head? = l.head? := by
  cases l <;> cases n <;> simp_all

theorem mem_insertByScoreDesc {x z : SummaryModel × ℝ} {l : List (SummaryModel × ℝ)} :
    z ∈ insertByScoreDesc x l ↔ z = x ∨ z ∈ l := by
  induction l with
  | nil => simp [insertByScoreDesc]
  | cons y ys ih =>
    rw [insertByScoreDesc]
    by_cases hxy : x.2 ≥ y.2
    · rw [if_pos hxy]
      simp [List.mem_cons]
    · rw [if_neg hxy]
      simp [List.mem_cons, ih]
      tauto

theorem mem_sortByScoreDesc {z : SummaryModel × ℝ} {l : List (SummaryModel × ℝ)} :
    z ∈ sortByScoreDesc l ↔ z ∈ l := by
  induction l with
  | nil => simp [sortByScoreDesc]
  | cons y ys ih =>
    rw [sortByScoreDesc]
    rw [mem_insertByScoreDesc]
    simp [List.mem_cons, ih]

theorem pairwise_insertByScoreDesc (x : SummaryModel × ℝ) (l : List (SummaryModel × ℝ))
    (hl : l.Pairwise (fun a b => b.2 ≤ a.2)) :
    (insertByScoreDesc x l).Pairwise (fun a b => b.2 ≤ a.2) := by
  induction l with
  | nil => simp [insertByScoreDesc]
  | cons y ys ih =>
    rw [insertByScoreDesc]
    rcases List.pairwise_cons.mp hl with ⟨hy, hys⟩
    by_cases hxy : x.2 ≥ y.2
    · rw [if_pos hxy]
      refine List.pairwise_cons.mpr ⟨?_, List.pairwise_cons.mpr ⟨hy, hys⟩⟩
      intro z hz
      rcases List.mem_cons.mp hz with rfl | hz'
      · exact hxy
      · exact le_trans (hy z hz') hxy
    · rw [if_neg hxy]
      refine List.pairwise_cons.mpr ⟨?_, ih hys⟩
      intro z hz
      rcases mem_insertByScoreDesc.mp hz with rfl | hz'
      · exact le_of_lt (lt_of_not_ge hxy)
      · exact hy z hz'

theorem pairwise_sortByScoreDesc (l : List (SummaryModel × ℝ)) :
    (sortByScoreDesc l).Pairwise (fun a b => b.2 ≤ a.2) := by
  induction l with
  | nil => simp [sortByScoreDesc]
  | cons y ys ih =>
    rw [sortByScoreDesc]
    exact pairwise_insertByScoreDesc y (sortByScoreDesc ys) ih

theorem sortByScoreDesc_head?_unique_max (l : List (SummaryModel × ℝ))
    (x : SummaryModel × ℝ) (hx : x ∈ l)
    (hmax : ∀ y ∈ l, y ≠ x → y.2 < x.2) :
    (sortByScoreDesc l).head? = some x := by
  have hx' : x ∈ sortByScoreDesc l := mem_sortByScoreDesc.mpr hx
  cases hsort : sortByScoreDesc l with
  | nil => rw [hsort] at hx'; cases hx'
  | cons hd tl =>
    have hhd : hd ∈ l := mem_sortByScoreDesc.mp (hsort ▸ List.mem_cons_self hd tl)
    have hpw := pairwise_sortByScoreDesc l
    rw [hsort] at hpw
    rcases List.pairwise_cons.mp hpw with ⟨hle, _⟩
    by_cases heq : hd = x
    · rw [heq]
      rfl
    · exfalso
      have hlt : hd.2 < x.2 := hmax hd hhd heq
      rw [hsort] at hx'
      rcases List.mem_cons.mp hx' with rfl | hxt
      · exact heq rfl
      · exact absurd (hle x hxt) (not_le.mpr hlt)

theorem filter_insertByScoreDesc (x : SummaryModel × ℝ) (l : List (SummaryModel × ℝ)) (c : ℝ) :
    (insertByScoreDesc x l).filter (fun p => decide (p.2 = c)) =
      if x.2 = c then x :: l.filter (fun p => decide (p.2 = c))
      else l.filter (fun p => decide (p.2 = c)) := by
  induction l with
  | nil =>
    by_cases hc : x.2 = c <;> simp [insertByScoreDesc, hc]
  | cons y ys ih =>
    rw [insertByScoreDesc]
    by_cases hxy : x.2 ≥ y.2
    · rw [if_pos hxy]
      by_cases hc : x.2 = c <;> simp [List.filter_cons, hc]
    · rw [if_neg hxy]
      have hyx : x.2 < y.2 := lt_of_not_ge hxy
      by_cases hc : x.2 = c
      · have hyc : ¬(y.2 = c) := by
          intro hyc
          rw [hc] at hyx
          rw [hyc] at hyx
          exact lt_irrefl c hyx
        simp [List.filter_cons, hyc, ih, hc]
      · simp [List.filter_cons, ih, hc]

theorem sortByScoreDesc_filter_stable (l : List (SummaryModel × ℝ)) (c : ℝ) :
    (sortByScoreDesc l).filter (fun p => decide (p.2 = c)) =
      l.filter (fun p => decide (p.2 = c)) := by
  induction l with
  | nil => rfl
  | cons x xs ih =>
    rw [sortByScoreDesc, filter_insertByScoreDesc]
    by_cases hc : x.2 = c <;> simp [List.filter_cons, hc, ih]

theorem imageInputParams_eq_nil_iff (schema : InputSchema) :
    imageInputParams schema = [] ↔
      ∀ kv ∈ schema, ¬(kv.2.isImageInput = true ∧ kv.2.isMask = false) := by
  simp [imageInputParams, List.filter_eq_nil_iff]

theorem imageInputParams_no_array_iff (schema : InputSchema) :
    (imageInputParams schema).filter (fun p => p.2 = "array") = [] ↔
      ∀ kv ∈ schema, kv.2.isImageInput = true → kv.2.isMask = false →
        kv.2.type ≠ "array" := by
  simp [imageInputParams, List.filter_eq_nil_iff, List.mem_filter]
  constructor
  · intro h a b hmem h1 h2
    exact h a b.type a b hmem h1 h2 rfl rfl
  · intro h a b x x1 hmem h1 h2 hxa hxb
    subst hxa
    subst hxb
    exact h x x1 hmem h1 h2

/-- C8: the schema extractor never throws: it is a total function of its
(possibly `null`/`undefined`) input, and it degrades to the empty mapping
whenever the `properties` section of the schema is absent. -/
theorem extractSimplifiedSchema_total_c8 :
    extractSimplifiedSchema none = [] ∧
    (∀ ms : RawModelSchema, ∃ out, extractSimplifiedSchema ms = out) ∧
    (∀ ms : RawModelSchema, rawProperties ms = none → extractSimplifiedSchema ms = []) := by
  refine ⟨rfl, fun ms => ⟨_, rfl⟩, ?_⟩
  intro ms h
  simp [extractSimplifiedSchema, h]

/-- Witness for C8 at a schema value whose `properties` chain is absent. -/
theorem extractSimplifiedSchema_total_c8_witness :
    rawProperties (some { openapi_schema := none }) = none ∧
    extractSimplifiedSchema (some { openapi_schema := none }) = [] :=
  ⟨rfl, extractSimplifiedSchema_total_c8.2.2 (some { openapi_schema := none }) rfl⟩

/-- C7: when the cache is stale or absent and the live fetch throws,
`getImageModels` returns the non-empty static fallback list, propagates
no error (it is total), and leaves the timestamped cache unchanged. -/
theorem getImageModels_fallback_c7 (cache : ModelsCache) (now : Nat) (e : String)
    (hstale : isCacheValid cache now = false) :
    getImageModels cache now (Except.error e) none = (fallbackModels, cache) ∧
    fallbackModels ≠ [] := by
  constructor
  · simp [getImageModels, hstale]
  · simp [fallbackModels]

/-- Witness for C7 on an empty cache and a failed fetch. -/
theorem getImageModels_fallback_c7_witness :
    getImageModels emptyCache 0 (Except.error "network error") none =
      (fallbackModels, emptyCache) ∧ fallbackModels ≠ [] :=
  getImageModels_fallback_c7 emptyCache 0 "network error" rfl

/-- C10: every static fallback model declares both reference capabilities
false, so a failed-fetch read filtered by a reference-image count of one
or more returns the empty list. -/
theorem fallbackModels_reference_filter_c10 :
    (∀ m ∈ fallbackModels, m.capabilities.supportsSingleReference = false ∧
        m.capabilities.supportsMultipleReferences = false) ∧
    (∀ (cache : ModelsCache) (now : Nat) (e : String) (k : Int),
        isCacheValid cache now = false → 1 ≤ k →
        (getImageModels cache now (Except.error e) (some k)).1 = []) := by
  constructor
  · decide
  · intro cache now e k hstale hk
    by_cases hk1 : k = 1
    · subst hk1
      simp [getImageModels, hstale]
      decide
    · have hk2 : (1 : Int) < k := lt_of_le_of_ne hk (Ne.symm hk1)
      have hk0 : ¬(k = 0) := by omega
      simp [getImageModels, hstale, hk0, hk1, hk2]
      decide

/-- Witness for C10 with a single requested reference image. -/
theorem fallbackModels_reference_filter_c10_witness :
    (getImageModels emptyCache 0 (Except.error "boom") (some 1)).1 = [] :=
  fallbackModels_reference_filter_c10.2 emptyCache 0 "boom" 1 rfl (by norm_num)

/-- C6: for a non-empty reference list, the schema-aware validation of the
generate-image tool raises exactly when the model has no non-mask
image-input parameter, or when several references are supplied and no
non-mask image-input parameter is array-typed; mask parameters are never
counted. -/
theorem validateReferenceImages_error_iff_c6 (modelName : String) (schema : InputSchema)
    (refs : List String) (h : refs ≠ []) :
    (∃ e, validateReferenceImages modelName schema refs = Except.error e) ↔
      ((∀ kv ∈ schema, ¬(kv.2.isImageInput = true ∧ kv.2.isMask = false)) ∨
       (1 < refs.length ∧
        ∀ kv ∈ schema, kv.2.isImageInput = true → kv.2.isMask = false →
          kv.2.type ≠ "array")) := by
  have h0 : refs.length > 0 := List.length_pos.mpr h
  rw [validateReferenceImages, if_pos h0]
  by_cases h1 : (imageInputParams schema).length = 0
  · rw [if_pos h1]
    have hs : imageInputParams schema = [] := List.length_eq_zero.mp h1
    constructor
    · intro _
      exact Or.inl ((imageInputParams_eq_nil_iff schema).mp hs)
    · intro _
      exact ⟨_, rfl⟩
  · rw [if_neg h1]
    by_cases h2 : refs.length > 1 ∧
        ((imageInputParams schema).filter (fun p => p.2 = "array")).length = 0
    · have hb : (decide (refs.length > 1) &&
          decide (((imageInputParams schema).filter (fun p => p.2 = "array")).length = 0)) =
            true := by
        simp [h2.1, h2.2]
      rw [if_pos hb]
      constructor
      · intro _
        refine Or.inr ⟨h2.1, ?_⟩
        exact (imageInputParams_no_array_iff schema).mp (List.length_eq_zero.mp h2.2)
      · intro _
        exact ⟨_, rfl⟩
    · have hb : ¬((decide (refs.length > 1) &&
          decide (((imageInputParams schema).filter (fun p => p.2 = "array")).length = 0)) =
            true) := by
        intro hcontra
        exact h2 (by simpa using hcontra)
      rw [if_neg hb]
      constructor
      · intro ⟨e, he⟩
        exact absurd he (by simp)
      · intro hrhs
        exfalso
        rcases hrhs with hall | ⟨hlen, hnoarr⟩
        · exact h1 (by
            rw [List.length_eq_zero]
            exact (imageInputParams_eq_nil_iff schema).mpr hall)
        · exact h2 ⟨hlen, by
            rw [List.length_eq_zero]
            exact (imageInputParams_no_array_iff schema).mpr hnoarr⟩

/-- Witness for C6: one reference against a schema with no image inputs. -/
theorem validateReferenceImages_error_iff_c6_witness :
    ∃ e, validateReferenceImages "m" [("seed", {})] ["u1"] = Except.error e :=
  (validateReferenceImages_error_iff_c6 "m" [("seed", {})] ["u1"] (by decide)).mpr
    (Or.inl (by decide))

/-- C9: `filterAndScoreModels` is deterministic — as a pure function of
catalog, requirements and limit it returns identical output on identical
input — and its sort is stable: the equal-score models of the scored list
appear in the sorted list in their original (catalog) order. -/
theorem filterAndScoreModels_deterministic_c9 :
    (∀ (catalog : List SummaryModel) (r : Requirements) (limit : Nat),
        filterAndScoreModels catalog r limit = filterAndScoreModels catalog r limit) ∧
    (∀ (l : List (SummaryModel × ℝ)) (c : ℝ),
        (sortByScoreDesc l).filter (fun p => decide (p.2 = c)) =
          l.filter (fun p => decide (p.2 = c))) :=
  ⟨fun _ _ _ => rfl, sortByScoreDesc_filter_stable⟩

/-- C1 counterexample: on the Scenario B schema the extracted
`image_input` parameter is a non-mask image input of type `array`, yet
the capability classifier that produces `supportsMultipleReferences`
(replicate-models.service) reports it false, because it only looks for
parameters literally named `images`; the summaries classifier
(models.routes) exposes only a single `supportsReferenceImages` flag. -/
theorem detectCapabilities_scenarioB_c1_counterexample :
    ((extractSimplifiedSchema scenarioBSchema).lookup "image_input").map
        (fun p => (p.type, p.isImageInput, p.isMask)) = some ("array", true, false) ∧
    (rmsDetectCapabilities scenarioBSchema).supportsMultipleReferences = false ∧
    (detectCapabilities
        (some (extractSimplifiedSchema scenarioBSchema))).supportsReferenceImages = true := by
  refine ⟨?_, ?_, ?_⟩ <;> decide

/-- Helper: the aspect-ratio component of the summaries classifier on a
non-empty schema. -/
theorem detectCapabilities_aspectRatios (l : InputSchema) (hl : ¬(l.isEmpty = true)) :
    (detectCapabilities (some l)).supportedAspectRatios =
      (match l.lookup "aspect_ratio" with
       | some ar =>
         match ar.options with
         | some opts => opts
         | none =>
           if (l.lookup "width").isSome && (l.lookup "height").isSome then ["custom"]
           else ["1:1"]
       | none =>
         if (l.lookup "width").isSome && (l.lookup "height").isSome then ["custom"]
         else ["1:1"]) := by
  rw [detectCapabilities, if_neg hl]

/-- Helper: the reference component of the summaries classifier on a
non-empty schema. -/
theorem detectCapabilities_supportsReferenceImages (l : InputSchema)
    (hl : ¬(l.isEmpty = true)) :
    (detectCapabilities (some l)).supportsReferenceImages =
      !(l.filter (fun kv => kv.2.isImageInput && !kv.2.isMask)).isEmpty := by
  rw [detectCapabilities, if_neg hl]

/-- C1 amended: neither classifier derives multi-reference support from
array-typed image parameters. The replicate-models classifier sets
`supportsMultipleReferences` true exactly when the raw schema declares a
property literally named `images`; the summaries classifier exposes a
single `supportsReferenceImages` flag that is true exactly when the
non-empty schema has a non-mask image-input parameter of any type. -/
theorem detectCapabilities_references_c1_amended :
    (∀ ms : RawModelSchema,
        ((rmsDetectCapabilities ms).supportsMultipleReferences = true ↔
          ∃ props, rawProperties ms = some props ∧ (props.lookup "images").isSome = true)) ∧
    (∀ s : Option InputSchema,
        ((detectCapabilities s).supportsReferenceImages = true ↔
          ∃ l, s = some l ∧ l ≠ [] ∧
            ∃ kv ∈ l, kv.2.isImageInput = true ∧ kv.2.isMask = false)) := by
  constructor
  · intro ms
    cases hp : rawProperties ms with
    | none => simp [rmsDetectCapabilities, hp]
    | some props => simp [rmsDetectCapabilities, hp]
  · intro s
    cases s with
    | none => simp [detectCapabilities]
    | some l =>
      by_cases hl : l.isEmpty = true
      · have hleq : l = [] := List.isEmpty_iff.mp hl
        subst hleq
        simp [detectCapabilities]
      · have hlne : l ≠ [] := by
          intro hc
          subst hc
          exact hl rfl
        rw [detectCapabilities_supportsReferenceImages l hl]
        constructor
        · intro hne
          have hfil : l.filter (fun kv => kv.2.isImageInput && !kv.2.isMask) ≠ [] := by
            intro hc
            rw [hc] at hne
            simp at hne
          obtain ⟨kv, hkvmem⟩ := List.exists_mem_of_ne_nil _ hfil
          have hkv := List.mem_filter.mp hkvmem
          have hkv2 : kv.2.isImageInput = true ∧ kv.2.isMask = false := by
            simpa using hkv.2
          exact ⟨l, rfl, hlne, kv, hkv.1, hkv2.1, hkv2.2⟩
        · rintro ⟨l', hl', hne', kv, hkv, h1, h2⟩
          obtain rfl : l = l' := Option.some.inj hl'
          have hmem : kv ∈ l.filter (fun kv => kv.2.isImageInput && !kv.2.isMask) :=
            List.mem_filter.mpr ⟨hkv, by simp [h1, h2]⟩
          have hfil := List.ne_nil_of_mem hmem
          cases hcons : l.filter (fun kv => kv.2.isImageInput && !kv.2.isMask) with
          | nil => exact absurd hcons hfil
          | cons a as => rfl

/-- C5 counterexample: for the empty mapping and for a missing schema the
summaries classifier returns an empty `supportedAspectRatios` list (and
its output has no `supportsSingleReference`/`supportsMultipleReferences`
fields at all — its field set is textToImage, imageToImage,
supportsReferenceImages, supportedAspectRatios). -/
theorem detectCapabilities_empty_schema_c5_counterexample :
    (detectCapabilities (some [])).supportedAspectRatios = [] ∧
    (detectCapabilities none).supportedAspectRatios = [] :=
  ⟨rfl, rfl⟩

/-- C5 amended: the summaries classifier is total — every input yields a
fully populated value of its four fields — but `supportedAspectRatios` is
empty exactly when the schema is missing or empty, or when its
`aspect_ratio` parameter declares an empty options list; in every other
case it is non-empty. -/
theorem detectCapabilities_totality_c5_amended :
    ∀ s : Option InputSchema,
      ((detectCapabilities s).supportedAspectRatios = [] ↔
        (s = none ∨ s = some [] ∨
          ∃ l ar, s = some l ∧ l.lookup "aspect_ratio" = some ar ∧
            ar.options = some [])) := by
  intro s
  cases s with
  | none => simp [detectCapabilities]
  | some l =>
    by_cases hl : l.isEmpty = true
    · have hleq : l = [] := List.isEmpty_iff.mp hl
      subst hleq
      simp [detectCapabilities]
    · have hlne : l ≠ [] := by
        intro hc
        subst hc
        exact hl rfl
      rw [detectCapabilities_aspectRatios l hl]
      cases har : l.lookup "aspect_ratio" with
      | none =>
        by_cases hwh : ((l.lookup "width").isSome && (l.lookup "height").isSome) = true
        · simp [hwh, hlne, har]
        · simp only [Bool.not_eq_true] at hwh
          simp [hwh, hlne, har]
      | some ar =>
        cases hop : ar.options with
        | none =>
          by_cases hwh : ((l.lookup "width").isSome && (l.lookup "height").isSome) = true
          · simp [hwh, hlne, har, hop]
          · simp only [Bool.not_eq_true] at hwh
            simp [hwh, hlne, har, hop]
        | some opts =>
          simp [hlne, har, hop]

theorem prefScore_styleFocus (m : SummaryModel) (r : Requirements) (sf : List String) :
    prefScore m { r with styleFocus := sf } = prefScore m r := rfl

theorem refImageScore_styleFocus (m : SummaryModel) (r : Requirements) (sf : List String) :
    refImageScore m { r with styleFocus := sf } = refImageScore m r := rfl

theorem qualityScore_styleFocus (m : SummaryModel) (r : Requirements) (sf : List String) :
    qualityScore m { r with styleFocus := sf } = qualityScore m r := rfl

theorem speedScore_styleFocus (m : SummaryModel) (r : Requirements) (sf : List String) :
    speedScore m { r with styleFocus := sf } = speedScore m r := rfl

theorem bestForScore_styleFocus (m : SummaryModel) (r : Requirements) (sf : List String) :
    bestForScore m { r with styleFocus := sf } = bestForScore m r := rfl

theorem aspectRatioScore_styleFocus (m : SummaryModel) (r : Requirements) (sf : List String) :
    aspectRatioScore m { r with styleFocus := sf } = aspectRatioScore m r := rfl

theorem specialNeedsScore_styleFocus (m : SummaryModel) (r : Requirements) (sf : List String) :
    specialNeedsScore m { r with styleFocus := sf } = specialNeedsScore m r := rfl

theorem notGoodForScore_styleFocus (m : SummaryModel) (r : Requirements) (sf : List String) :
    notGoodForScore m { r with styleFocus := sf } = notGoodForScore m r := rfl

theorem refImageScore_preferredModel (m : SummaryModel) (r : Requirements) (p : Option String) :
    refImageScore m { r with preferredModel := p } = refImageScore m r := rfl

theorem styleScore_preferredModel (m : SummaryModel) (r : Requirements) (p : Option String) :
    styleScore m { r with preferredModel := p } = styleScore m r := rfl

theorem qualityScore_preferredModel (m : SummaryModel) (r : Requirements) (p : Option String) :
    qualityScore m { r with preferredModel := p } = qualityScore m r := rfl

theorem speedScore_preferredModel (m : SummaryModel) (r : Requirements) (p : Option String) :
    speedScore m { r with preferredModel := p } = speedScore m r := rfl

theorem bestForScore_preferredModel (m : SummaryModel) (r : Requirements) (p : Option String) :
    bestForScore m { r with preferredModel := p } = bestForScore m r := rfl

theorem aspectRatioScore_preferredModel (m : SummaryModel) (r : Requirements)
    (p : Option String) :
    aspectRatioScore m { r with preferredModel := p } = aspectRatioScore m r := rfl

theorem specialNeedsScore_preferredModel (m : SummaryModel) (r : Requirements)
    (p : Option String) :
    specialNeedsScore m { r with preferredModel := p } = specialNeedsScore m r := rfl

theorem notGoodForScore_preferredModel (m : SummaryModel) (r : Requirements)
    (p : Option String) :
    notGoodForScore m { r with preferredModel := p } = notGoodForScore m r := rfl

theorem popularityScore_one : popularityScore 1 = 0 := by
  simp [popularityScore, Real.logb_one]

/-- C2 counterexample: a text-to-image model declaring an *empty*
`supportedAspectRatios` list is dropped by the aspect-ratio hard filter
(an empty JS array is truthy), so `filterAndScoreModels` returns nothing
for it, contradicting the claim that an empty list never drops. -/
theorem aspectRatioFilter_c2_counterexample :
    mC2.capabilities.supportedAspectRatios = some [] ∧
    passesHardFilters reqC2 mC2 = false ∧
    filterAndScoreModels [mC2] reqC2 5 = [] := by
  refine ⟨rfl, by decide, ?_⟩
  have hp : passesHardFilters reqC2 mC2 = false := by decide
  simp [filterAndScoreModels, hp, sortByScoreDesc]

/-- C2 amended: with an aspect ratio requested (and the other hard
filters passing), the filter drops a model exactly when it declares a
`supportedAspectRatios` list — empty or not — containing neither the
requested ratio nor `"custom"`; in particular a declared empty list is
dropped, while a model with no declared list is kept. -/
theorem aspectRatioFilter_c2_amended (m : SummaryModel) (r : Requirements) (ratio : String)
    (har : r.aspectRatio = some ratio) (hratio : ratio ≠ "")
    (href : r.needsReferenceImages = false) (ht2i : m.capabilities.textToImage = true) :
    (passesHardFilters r m = false ↔
      ∃ l, m.capabilities.supportedAspectRatios = some l ∧
        ratio ∉ l ∧ "custom" ∉ l) := by
  cases hsar : m.capabilities.supportedAspectRatios with
  | none => simp [passesHardFilters, href, ht2i, har, truthyStr, hratio, hsar]
  | some l => simp [passesHardFilters, href, ht2i, har, truthyStr, hratio, hsar]

/-- Witness for the amended C2 at the empty-list model. -/
theorem aspectRatioFilter_c2_amended_witness :
    passesHardFilters reqC2 mC2 = false ↔
      ∃ l, mC2.capabilities.supportedAspectRatios = some l ∧
        "16:9" ∉ l ∧ "custom" ∉ l :=
  aspectRatioFilter_c2_amended mC2 reqC2 "16:9" rfl (by decide) rfl rfl

/-- C3 counterexample: a model with no `styleStrengths` at all receives
no `-10` penalty — its score with a non-empty unmatched `styleFocus`
equals its score without any style focus, instead of being 10 lower. -/
theorem styleScore_no_strengths_c3_counterexample :
    (mC3.summary.bind (fun s => s.styleStrengths)).getD [] = [] ∧
    scoreModel mC3 reqC3 = 10 ∧
    scoreModel mC3 { reqC3 with styleFocus := [] } = 10 ∧
    scoreModel mC3 reqC3 ≠ scoreModel mC3 { reqC3 with styleFocus := [] } - 10 := by
  have hpop : popularityScore mC3.runCount = 0 := popularityScore_one
  have h1 : scoreModelInt mC3 reqC3 = 10 := by decide
  have h2 : scoreModelInt mC3 { reqC3 with styleFocus := [] } = 10 := by decide
  refine ⟨rfl, ?_, ?_, ?_⟩
  · rw [scoreModel, hpop, h1]
    norm_num
  · rw [scoreModel, hpop, h2]
    norm_num
  · rw [scoreModel, scoreModel, hpop, h1, h2]
    norm_num

/-- C3 amended: a non-empty `styleFocus` contributes `+15` per matched
style and `-10` on zero matches only when the model declares a non-empty
`styleStrengths` list; a model with no style strengths receives no style
contribution or penalty at all. -/
theorem styleScore_c3_amended (m : SummaryModel) (r : Requirements) (sf : List String)
    (hsf : sf ≠ []) :
    scoreModel m { r with styleFocus := sf } =
      scoreModel m { r with styleFocus := [] } +
        ((styleContributionSpec ((m.summary.bind (fun s => s.styleStrengths)).getD []) sf :
          Int) : ℝ) := by
  have hstyle1 : styleScore m { r with styleFocus := sf } =
      styleContributionSpec ((m.summary.bind (fun s => s.styleStrengths)).getD []) sf := by
    rw [styleScore]
    have hproj : ({ r with styleFocus := sf } : Requirements).styleFocus = sf := rfl
    rw [hproj]
    rw [if_pos (List.length_pos.mpr hsf)]
    rw [styleContributionSpec]
    by_cases hempty : (m.summary.bind (fun s => s.styleStrengths)).getD [] = []
    · rw [if_pos hempty, hempty]
      simp
    · rw [if_neg hempty]
      rw [if_pos (List.length_pos.mpr hempty)]
      by_cases hm : sf.filter
          (fun reqStyle =>
            ((m.summary.bind (fun s => s.styleStrengths)).getD []).any
              (fun ms => styleMatches ms reqStyle)) = []
      · rw [hm]
        simp
      · rw [if_pos (List.length_pos.mpr hm), if_pos hm]
  have hstyle0 : styleScore m { r with styleFocus := [] } = 0 := by
    rw [styleScore]
    have hproj : ({ r with styleFocus := [] } : Requirements).styleFocus =
      ([] : List String) := rfl
    rw [hproj]
    simp
  rw [scoreModel, scoreModel, scoreModelInt, scoreModelInt]
  simp only [prefScore_styleFocus, refImageScore_styleFocus, qualityScore_styleFocus,
    speedScore_styleFocus, bestForScore_styleFocus, aspectRatioScore_styleFocus,
    specialNeedsScore_styleFocus, notGoodForScore_styleFocus, hstyle1, hstyle0]
  push_cast
  ring

/-- Witness for the amended C3: the no-strengths model gets a zero style
contribution. -/
theorem styleScore_c3_amended_witness :
    scoreModel mC3 { reqC3 with styleFocus := ["anime"] } =
      scoreModel mC3 { reqC3 with styleFocus := [] } +
        ((styleContributionSpec
          ((mC3.summary.bind (fun s => s.styleStrengths)).getD []) ["anime"] : Int) : ℝ) :=
  styleScore_c3_amended mC3 reqC3 ["anime"] (by decide)

/-- C4 counterexample: with exactly one catalog model matching the
`flux-dev` preference, a non-matching competitor still ranks first when
its other signals (eight matched styles, `+120`) outweigh the `+100`
bonus: the pipeline returns the competitor before the preferred model. -/
theorem prefBonus_c4_counterexample :
    prefMatches mC4A "flux-dev" = true ∧
    prefMatches mC4B "flux-dev" = false ∧
    filterAndScoreModels [mC4A, mC4B] reqC4 5 = [mC4B, mC4A] := by
  refine ⟨by decide, by decide, ?_⟩
  have hiA : scoreModelInt mC4A reqC4 = 100 := by decide
  have hiB : scoreModelInt mC4B reqC4 = 130 := by decide
  have hA : scoreModel mC4A reqC4 = 100 := by
    have hpop : popularityScore mC4A.runCount = 0 := popularityScore_one
    rw [scoreModel, hpop, hiA]
    norm_num
  have hB : scoreModel mC4B reqC4 = 130 := by
    have hpop : popularityScore mC4B.runCount = 0 := popularityScore_one
    rw [scoreModel, hpop, hiB]
    norm_num
  have hfil : List.filter (fun m => passesHardFilters reqC4 m) [mC4A, mC4B] =
      [mC4A, mC4B] := by decide
  simp only [filterAndScoreModels, List.isEmpty_cons, hfil, List.map_cons, List.map_nil,
    hA, hB, if_false, Bool.false_eq_true]
  rw [sortByScoreDesc, sortByScoreDesc, sortByScoreDesc]
  rw [insertByScoreDesc]
  rw [insertByScoreDesc]
  rw [if_neg (show ¬((100 : ℝ) ≥ 130) by norm_num)]
  rw [insertByScoreDesc]
  rfl

/-- C4 amended: the `+100` bonus goes to exactly the models whose
lowercased name, id, owner or full name contains the lowercased
preference hint — the score with the hint equals the score without it
plus the conditional bonus — and the matching model ranks first whenever
its total score strictly exceeds every other surviving candidate's (in
particular whenever the other candidates trail by less than 100 in the
remaining signals); the bonus alone cannot guarantee first place because
style and special-needs contributions are unbounded. -/
theorem prefBonus_c4_amended :
    (∀ (m : SummaryModel) (r : Requirements) (p : String),
        r.preferredModel = some p → p ≠ "" →
        scoreModel m r = scoreModel m { r with preferredModel := none } +
          ((if prefMatches m p then 100 else 0 : Int) : ℝ)) ∧
    (∀ (catalog : List SummaryModel) (r : Requirements) (limit : Nat) (a : SummaryModel),
        a ∈ catalog → passesHardFilters r a = true → 0 < limit →
        (∀ b ∈ catalog, b ≠ a → passesHardFilters r b = true →
          scoreModel b r < scoreModel a r) →
        (filterAndScoreModels catalog r limit).head? = some a) := by
  constructor
  · intro m r p hp hpne
    have h1 : prefScore m r = (if prefMatches m p then 100 else 0) := by
      rw [prefScore, hp]
      simp [truthyStr, hpne]
    have h0 : prefScore m { r with preferredModel := none } = 0 := by
      rw [prefScore]
      simp [truthyStr]
    rw [scoreModel, scoreModel, scoreModelInt, scoreModelInt]
    simp only [refImageScore_preferredModel, styleScore_preferredModel,
      qualityScore_preferredModel, speedScore_preferredModel, bestForScore_preferredModel,
      aspectRatioScore_preferredModel, specialNeedsScore_preferredModel,
      notGoodForScore_preferredModel, h1, h0]
    push_cast
    ring
  · intro catalog r limit a ha hpass hlim hmax
    have hcat : catalog.isEmpty = false := by
      cases catalog with
      | nil => cases ha
      | cons x xs => rfl
    simp only [filterAndScoreModels, hcat, Bool.false_eq_true, if_false]
    rw [List.head?_map]
    rw [head?_take_of_pos _ _ hlim]
    have hmem : (a, scoreModel a r) ∈
        (catalog.filter (fun m => passesHardFilters r m)).map
          (fun m => (m, scoreModel m r)) :=
      List.mem_map.mpr ⟨a, List.mem_filter.mpr ⟨ha, hpass⟩, rfl⟩
    have hmax' : ∀ y ∈ (catalog.filter (fun m => passesHardFilters r m)).map
        (fun m => (m, scoreModel m r)),
        y ≠ (a, scoreModel a r) → y.2 < (a, scoreModel a r).2 := by
      intro y hy hne
      obtain ⟨b, hb, rfl⟩ := List.mem_map.mp hy
      have hbf := List.mem_filter.mp hb
      by_cases hba : b = a
      · subst hba
        exact absurd rfl hne
      · exact hmax b hbf.1 hba hbf.2
    rw [sortByScoreDesc_head?_unique_max _ _ hmem hmax']
    rfl

/-- Witness for the amended C4 on a singleton catalog whose only model
matches the hint. -/
theorem prefBonus_c4_amended_witness :
    (scoreModel mC4W reqC4W = scoreModel mC4W { reqC4W with preferredModel := none } +
      ((if prefMatches mC4W "w" then 100 else 0 : Int) : ℝ)) ∧
    (filterAndScoreModels [mC4W] reqC4W 5).head? = some mC4W := by
  constructor
  · exact prefBonus_c4_amended.1 mC4W reqC4W "w" rfl (by decide)
  · refine prefBonus_c4_amended.2 [mC4W] reqC4W 5 mC4W (by simp) (by decide) (by norm_num) ?_
    intro b hb hne hp
    rw [List.mem_singleton] at hb
    exact absurd hb hne
